import Mathlib

/-!
# Composite checkout: completion redirect, cart hand-off and effect hooks

A shallow embedding of `client/my-sites/checkout/checkout/composite-checkout.js`.
Plain expressions of the component body become functions of the props and
hook results they read.  Hooks (`useState`, `useMemo`, `useEffect`) become
explicit records carried from one render to the next: the state cell, the
dependency array of the previous render, and the log of calls made to
external collaborators (`window.location`, `notices.error`, `dispatch`).

The namespace `EslintrcForPackages` embeds
`packages/generate-eslintrc-for-packages.js`: the two configuration objects as
values with their keys in the order written.
-/

namespace CompositeCheckout

/-! ## JavaScript values read by the component -/

/-- A JavaScript number as far as this component observes one: whether it is
falsy (`0`, `-0` and `NaN` are) and the text a template literal prints for it
(`123` for the number 123, `1e+21` for the number 10^21, `-1.5`, `NaN`).  How
the language turns a number into text is taken as given with the number. -/
structure JsNumber where
  falsy : Bool
  printed : String
  deriving DecidableEq, Repr

/-- The `siteId` prop: `PropTypes.oneOfType( [ PropTypes.string, PropTypes.number ] )`,
or absent. -/
inductive SiteId where
  | undefined : SiteId
  | str (s : String) : SiteId
  | num (n : JsNumber) : SiteId
  deriving DecidableEq, Repr

/-- JavaScript truthiness of a `siteId`: `undefined`, `''` and the falsy
numbers are falsy. -/
def SiteId.truthy : SiteId → Bool
  | .undefined => false
  | .str s => s != ""
  | .num n => !n.falsy

/-- String conversion applied by a template literal to a `siteId`. -/
def SiteId.toJsString : SiteId → String
  | .undefined => "undefined"
  | .str s => s
  | .num n => n.printed

/-- The expression `siteId || ''` as printed inside a template literal. -/
def SiteId.orEmpty (v : SiteId) : String :=
  if v.truthy then v.toJsString else ""

/-- The expression `siteSlug || ''` for the `siteSlug` prop (`PropTypes.string`,
possibly absent): an absent or empty slug prints as the empty string. -/
def slugOrEmpty : Option String → String
  | none => ""
  | some s => if s != "" then s else ""

/-- The props of `CompositeCheckout` that name the site. -/
structure Props where
  siteSlug : Option String
  siteId : SiteId
  deriving DecidableEq, Repr

/-! ## Payment completion -/

/-- The callback `onPaymentComplete`: the argument it hands to `page.redirect`.
The callback closes over `siteId` alone (`useCallback( ..., [ siteId ] )`). -/
def onPaymentComplete (props : Props) : String :=
  "/checkout/thank-you/" ++ props.siteId.orEmpty ++ "/"

/-! ## Items handed to the checkout provider -/

/-- The expression `items.length ? [ ...items, tax ] : []`. -/
def itemsForCheckout {α : Type} (items : List α) (tax : α) : List α :=
  if items.length != 0 then items ++ [tax] else []

/-- The second argument of `useRedirectIfCartEmpty`: the template literal
with `siteSlug || ''` after `/plans/`. -/
def plansUrl (props : Props) : String :=
  "/plans/" ++ slugOrEmpty props.siteSlug

/-! ## React hook cells

A hook keeps its cells between renders.  An effect or memo whose dependency
array is given runs on the first render and on every later render where some
dependency differs (by `Object.is`) from the previous render.  Arrays and
functions are compared by identity, so they carry a reference number. -/

/-- A JavaScript array value: its identity and its elements. -/
structure JsArray (α : Type) where
  ref : Nat
  elems : List α
  deriving DecidableEq, Repr

/-- The property `length` of an array. -/
def JsArray.length {α : Type} (a : JsArray α) : Nat := a.elems.length

/-- Whether an effect or memo with dependency array `cur` runs, given the
dependency array recorded at the previous render (`none` on mount). -/
def depsChanged {δ : Type} [DecidableEq δ] (prev : Option δ) (cur : δ) : Bool :=
  !decide (prev = some cur)

/-! ## `useRedirectIfCartEmpty` -/

/-- The cells of `useRedirectIfCartEmpty`: the state `prevItemsLength` and the
dependency arrays of its two effects as of the previous render. -/
structure RedirectIfCartEmpty where
  prevItemsLength : Nat
  itemsDeps : Option Nat
  redirectDeps : Option (String × Nat × Nat)
  deriving DecidableEq, Repr

/-- The cells on mount: `useState( 0 )`, no render yet. -/
def RedirectIfCartEmpty.mount : RedirectIfCartEmpty :=
  { prevItemsLength := 0, itemsDeps := none, redirectDeps := none }

/-- One render of `useRedirectIfCartEmpty( items, redirectUrl )` followed by its
effects: the first effect stores `items.length` in the state (seen by the next
render), the second assigns `redirectUrl` to `window.location` when the state
read by this render is positive and `items` is empty.  Returns the cells after
the render and the assignments made to `window.location`. -/
def useRedirectIfCartEmpty {α : Type} (h : RedirectIfCartEmpty) (items : JsArray α)
    (redirectUrl : String) : RedirectIfCartEmpty × List String :=
  let prevItemsLength := h.prevItemsLength
  let deps1 := items.ref
  let deps2 := (redirectUrl, items.ref, prevItemsLength)
  let next := if depsChanged h.itemsDeps deps1 then items.length else prevItemsLength
  let assigned :=
    if depsChanged h.redirectDeps deps2 && (decide (prevItemsLength > 0) && (items.length == 0))
    then [redirectUrl] else []
  ({ prevItemsLength := next, itemsDeps := some deps1, redirectDeps := some deps2 }, assigned)

/-- What one render of `CompositeCheckout` passes on: the `items` returned by
`useShoppingCart` and the props. -/
structure CartRender (α : Type) where
  items : JsArray α
  props : Props

/-- The call `useRedirectIfCartEmpty( items, plansUrl )` over successive renders
of `CompositeCheckout`, starting from cells `h`: every assignment made to
`window.location`, in order. -/
def redirectLog {α : Type} (h : RedirectIfCartEmpty) : List (CartRender α) → List String
  | [] => []
  | r :: rest =>
    let step := useRedirectIfCartEmpty h r.items (plansUrl r.props)
    step.2 ++ redirectLog step.1 rest

/-- Arrays are not mutated in place: two successive renders that receive the
same array object receive the same elements. -/
def ItemsImmutable {α : Type} (rs : List (CartRender α)) : Prop :=
  List.Chain' (fun a b => a.items.ref = b.items.ref → a.items.elems = b.items.elems) rs

/-- The renders at which the cart has just gone from non-empty to empty: the
pairs of successive renders whose first cart has an item and whose second has
none, each giving the fallback URL of the second render. -/
def emptiedAt {α : Type} (rs : List (CartRender α)) : List String :=
  ((rs.zip rs.tail).filter
    (fun p => !p.1.items.elems.isEmpty && p.2.items.elems.isEmpty)).map
    (fun p => plansUrl p.2.props)

/-- The cells of `useRedirectIfCartEmpty` once the effects of a render that
received `a` have run: the state holds the length of its cart and both
dependency arrays name its array. -/
def RedirectSettled {α : Type} (a : CartRender α) (h : RedirectIfCartEmpty) : Prop :=
  h.prevItemsLength = a.items.length ∧ h.itemsDeps = some a.items.ref ∧
    ∃ u p, h.redirectDeps = some (u, a.items.ref, p)

/-! ## Memo cells -/

/-- The cell of a `useMemo` or `useCallback`: the dependency array it was
computed for, the value, and the identity of the value (a fresh object at every
recomputation). -/
structure MemoCell (δ β : Type) where
  deps : δ
  value : β
  gen : Nat

/-- One render of `useMemo( compute, deps )`: the value is computed on mount and
whenever `deps` changed, and the cell of the previous render is kept otherwise. -/
def useMemo {δ β : Type} [DecidableEq δ] (cell : Option (MemoCell δ β)) (deps : δ)
    (compute : Unit → β) : MemoCell δ β :=
  match cell with
  | none => { deps := deps, value := compute (), gen := 0 }
  | some c =>
    if depsChanged (some c.deps) deps
    then { deps := deps, value := compute (), gen := c.gen + 1 }
    else c

/-! ## Loading flags -/

/-- The two loading flags read by one render (`isLoading` from
`useShoppingCart`, `isLoadingStoredCards` from `useStoredCards`), and the
identity of the remaining dependencies of the `paymentMethods` memo taken
together. -/
structure LoadingRender where
  isLoading : Bool
  isLoadingStoredCards : Bool
  otherDeps : Nat
  deriving DecidableEq, Repr

/-- One render of the `useMemo` that calls `createPaymentMethods`.  The value
kept is the `isLoading` field of the argument the factory was called with,
`isLoading || isLoadingStoredCards`. -/
def paymentMethods (cell : Option (MemoCell (Bool × Bool × Nat) Bool)) (r : LoadingRender) :
    MemoCell (Bool × Bool × Nat) Bool :=
  useMemo cell (r.isLoading, r.isLoadingStoredCards, r.otherDeps)
    (fun _ => r.isLoading || r.isLoadingStoredCards)

/-- The memo cell after a series of renders from mount, first render first. -/
def paymentMethodsAfter (rs : List LoadingRender) : Option (MemoCell (Bool × Bool × Nat) Bool) :=
  rs.foldl (fun cell r => some (paymentMethods cell r)) none

/-- The prop `isLoading` given to `CheckoutProvider` by a render. -/
def checkoutProviderIsLoading (r : LoadingRender) : Bool :=
  r.isLoading || r.isLoadingStoredCards

/-- The `isLoading` argument kept in a memo cell is the disjunction of the two
flags the cell was computed for. -/
def MemoFresh (cell : Option (MemoCell (Bool × Bool × Nat) Bool)) : Prop :=
  ∀ c, cell = some c → c.value = (c.deps.1 || c.deps.2.1)

/-! ## Error display -/

/-- An error in the `errors` array of `useShoppingCart`; its `message` may be
missing. -/
structure CartError where
  message : Option String
  deriving DecidableEq, Repr

/-- The function `translate` returned by `useTranslate`: its identity and the
text it returns. -/
structure Translate where
  ref : Nat
  apply : String → String

/-- The callback `showErrorMessage` applied to an element of `errorMessages`:
the argument it gives to `notices.error`.  A string with characters is its own
`toString()`; an empty or missing message is falsy and is replaced by the
translated default. -/
def showErrorMessage (translate : Translate) (error : Option String) : String :=
  let message : Option String :=
    match error with
    | some s => if s != "" then some s else error
    | none => error
  match message with
  | some s => if s != "" then s else translate.apply "An error occurred during your purchase."
  | none => translate.apply "An error occurred during your purchase."

/-- The cells behind the error display of `CompositeCheckout`: the callback
`showErrorMessage` (`useCallback` on `[ translate ]`), the memo `errorMessages`
(`useMemo` on `[ errors ]`) and the dependency array of the effect of
`useDisplayErrors` as of the previous render. -/
structure DisplayErrors where
  showErrorMessage : Option (MemoCell Nat Translate)
  errorMessages : Option (MemoCell Nat (List (Option String)))
  effectDeps : Option (Nat × Nat)

/-- The cells on mount. -/
def DisplayErrors.mount : DisplayErrors :=
  { showErrorMessage := none, errorMessages := none, effectDeps := none }

/-- One render of the error display: `errorMessages` is `errors.map( error =>
error.message )`, and the effect of `useDisplayErrors( errorMessages,
showErrorMessage )` runs `errors.map( displayError )` when either of the two
changed identity.  Returns the cells after the render and the arguments of the
calls made to `notices.error`. -/
def useDisplayErrors (h : DisplayErrors) (errors : JsArray CartError) (translate : Translate) :
    DisplayErrors × List String :=
  let displayError := useMemo h.showErrorMessage translate.ref (fun _ => translate)
  let errorMessages := useMemo h.errorMessages errors.ref
    (fun _ => errors.elems.map (fun error => error.message))
  let deps := (errorMessages.gen, displayError.gen)
  let shown :=
    if depsChanged h.effectDeps deps
    then errorMessages.value.map (showErrorMessage displayError.value) else []
  ({ showErrorMessage := some displayError, errorMessages := some errorMessages,
     effectDeps := some deps }, shown)

/-- The error display over successive renders, each with the `errors` array of
that render: every argument given to `notices.error`, in order. -/
def displayLog (translate : Translate) (h : DisplayErrors) :
    List (JsArray CartError) → List String
  | [] => []
  | errors :: rest =>
    let step := useDisplayErrors h errors translate
    step.2 ++ displayLog translate step.1 rest

/-- A session in which the cart starts without errors and then reports the
errors `es` one at a time, each new error appended to the list in a new array:
render `k` receives the first `k` errors. -/
def appendSession (es : List CartError) : List (JsArray CartError) :=
  (List.range (es.length + 1)).map (fun k => { ref := k, elems := es.take k })

/-- The cells of the error display once the effects of a render that received
the `errors` array `last` and the function `translate` have run. -/
def DisplaySettled (translate : Translate) (last : Nat) (h : DisplayErrors) : Prop :=
  ∃ g g' v, h.showErrorMessage = some { deps := translate.ref, value := translate, gen := g } ∧
    h.errorMessages = some { deps := last, value := v, gen := g' } ∧
    h.effectDeps = some (g', g)

/-! ## Catalog requests -/

/-- The actions dispatched to the store by the variant hooks. -/
inductive Action where
  | requestPlans : Action
  | requestProductsList : Action
  deriving DecidableEq, Repr

/-- A plan as looked up by `getPlan`: the two fields read by the hooks. -/
structure Plan where
  group : String
  type : String
  deriving DecidableEq, Repr

/-- A priced plan as computed by `computeProductsWithPrices`. -/
structure ProductWithPrice where
  planSlug : String
  deriving DecidableEq, Repr

/-- What the imported plan tables and selectors answer during one render:
`getPlan`, `findPlansKeys( { group, type } )`, the constant `GROUP_WPCOM`, and
`computeProductsWithPrices` for the site, credits and coupon discounts of the
component as a function of the plan slugs asked for (`none` is a falsy
result). -/
structure Catalog where
  getPlan : String → Option Plan
  findPlansKeys : String → String → List String
  GROUP_WPCOM : String
  computeProductsWithPrices : List String → Option (List ProductWithPrice)

/-- The cells of a fetch-once guard: the state flag (`useState( false )`) and
the dependency array of the effect as of the previous render. -/
structure FetchOnce where
  haveFetched : Bool
  deps : Option (Bool × Bool)
  deriving DecidableEq, Repr

/-- The cells on mount. -/
def FetchOnce.mount : FetchOnce := { haveFetched := false, deps := none }

/-- How many more times a fetch-once guard can fire: once while its flag is
unset, never after. -/
def FetchOnce.remaining (h : FetchOnce) : Nat := if h.haveFetched then 0 else 1

/-- One render of `useVariantWpcomPlanProductSlugs( productSlug )` followed by
its effect.  Returns the cells after the render, the actions dispatched, and
the plan slugs returned to the caller. -/
def useVariantWpcomPlanProductSlugs (h : FetchOnce) (c : Catalog) (productSlug : String) :
    FetchOnce × List Action × List String :=
  let chosenPlan := c.getPlan productSlug
  let haveFetchedPlans := h.haveFetched
  let shouldFetchPlans := chosenPlan.isNone
  let deps := (haveFetchedPlans, shouldFetchPlans)
  let fires := depsChanged h.deps deps && (shouldFetchPlans && !haveFetchedPlans)
  let dispatched := if fires then [Action.requestPlans, Action.requestProductsList] else []
  let result :=
    match chosenPlan with
    | none => []
    | some plan =>
      if plan.group != c.GROUP_WPCOM then [] else c.findPlansKeys plan.group plan.type
  ({ haveFetched := if fires then true else haveFetchedPlans, deps := some deps },
    dispatched, result)

/-- The cells of `useWpcomProductVariants`: those of the
`useVariantWpcomPlanProductSlugs` it calls, then its own guard. -/
structure WpcomProductVariants where
  plans : FetchOnce
  products : FetchOnce
  deriving DecidableEq, Repr

/-- The cells on mount. -/
def WpcomProductVariants.mount : WpcomProductVariants :=
  { plans := FetchOnce.mount, products := FetchOnce.mount }

/-- One render of `useWpcomProductVariants` followed by the effects, which run
in the order the hooks were called: first the effect of
`useVariantWpcomPlanProductSlugs`, then its own.  Returns the cells after the
render and the actions dispatched.  The function the hook returns only formats
`productsWithPrices` for display and is left out. -/
def useWpcomProductVariants (h : WpcomProductVariants) (c : Catalog) (productSlug : String) :
    WpcomProductVariants × List Action :=
  let inner := useVariantWpcomPlanProductSlugs h.plans c productSlug
  let availableVariants := inner.2.2
  let productsWithPrices := c.computeProductsWithPrices availableVariants
  let haveFetchedProducts := h.products.haveFetched
  let shouldFetchProducts := productsWithPrices.isNone
  let deps := (shouldFetchProducts, haveFetchedProducts)
  let fires := depsChanged h.products.deps deps && (shouldFetchProducts && !haveFetchedProducts)
  let dispatched := if fires then [Action.requestPlans, Action.requestProductsList] else []
  ({ plans := inner.1,
     products := { haveFetched := if fires then true else haveFetchedProducts,
                   deps := some deps } },
    inner.2.1 ++ dispatched)

/-- A component that calls `useWpcomProductVariants` over successive renders,
each with the catalog as it stands and the product slug of that render: every
action dispatched, in order. -/
def dispatchLog (h : WpcomProductVariants) : List (Catalog × String) → List Action
  | [] => []
  | r :: rest =>
    let step := useWpcomProductVariants h r.1 r.2
    step.2 ++ dispatchLog step.1 rest

/-! ## Adding the product named in the URL -/

/-- A value kept in the `extra` map of a cart item. -/
inductive ExtraValue where
  | str (s : String) : ExtraValue
  | num (n : Nat) : ExtraValue
  | bool (b : Bool) : ExtraValue
  deriving DecidableEq, Repr

/-- A JavaScript object used as a map: its own keys, in insertion order, each
with its value. -/
abbrev JsObject := List (String × ExtraValue)

/-- The object literal `{ ...source, key: value }`: the properties of `source`
are copied in order and `key` is then set; a key already present keeps its
place and takes the new value, a new key goes last.  Spreading `undefined`
copies nothing. -/
def spreadThenSet (source : Option JsObject) (key : String) (value : ExtraValue) : JsObject :=
  let copied := source.getD []
  if copied.any (fun p => p.1 == key)
  then copied.map (fun p => if p.1 == key then (p.1, value) else p)
  else copied ++ [(key, value)]

/-- A cart item as built by `lib/cart-values/cart-items`: the two properties
`createItemToAddToCart` writes to (`product_id`, `extra`, either possibly
missing) and the remaining properties. -/
structure CartItem where
  product_id : Option Nat
  extra : Option JsObject
  others : JsObject
  deriving DecidableEq, Repr

/-- The plan found by `getPlanBySlug`; its `product_id` is read. -/
structure StatePlan where
  product_id : Option Nat
  deriving DecidableEq, Repr

/-- The item builders imported from `lib/cart-values/cart-items`.  `themeItem`
and `domainMapping` receive the text after the first colon of the slug, which
is missing when the slug has no colon. -/
structure CartItems where
  planItem : String → CartItem
  themeItem : Option String → CartItem
  domainMapping : Option String → CartItem
  conciergeSessionItem : Unit → CartItem
  jetpackProductItem : String → CartItem

/-- The method `startsWith` of a string. -/
def startsWith (s start : String) : Bool := start.toList.isPrefixOf s.toList

/-- The expression `planSlug.split( ':' )[ 1 ]`. -/
def secondPart (planSlug : String) : Option String :=
  ((planSlug.toList.splitOn ':').map String.mk)[1]?

/-- The function `createItemToAddToCart( { planSlug, plan, isJetpackNotAtomic } )`.
The `if` statements run one after another, each overwriting `cartItem`; the
last statement replaces `extra` by `{ ...cartItem.extra, context: 'calypstore' }`.
The result is `none` when `cartItem` was never assigned, where reading
`cartItem.extra` throws. -/
def createItemToAddToCart (lib : CartItems) (planSlug : String) (plan : StatePlan)
    (isJetpackNotAtomic : Bool) : Option CartItem :=
  let cartItem : Option CartItem := none
  let cartItem :=
    if planSlug != "" then some { lib.planItem planSlug with product_id := plan.product_id }
    else cartItem
  let cartItem :=
    if startsWith planSlug "theme" then some (lib.themeItem (secondPart planSlug))
    else cartItem
  let cartItem :=
    if startsWith planSlug "domain-mapping" then some (lib.domainMapping (secondPart planSlug))
    else cartItem
  let cartItem :=
    if startsWith planSlug "concierge-session" then some (lib.conciergeSessionItem ())
    else cartItem
  let cartItem :=
    if startsWith planSlug "jetpack_backup" && isJetpackNotAtomic
    then some (lib.jetpackProductItem planSlug)
    else cartItem
  match cartItem with
  | none => none
  | some item =>
    some { item with extra := some (spreadThenSet item.extra "context" (ExtraValue.str "calypstore")) }

/-- The item built for a slug, by kind of product: a Jetpack backup product on
a Jetpack site that is not Atomic, a concierge session, a domain mapping, a
theme, and otherwise the plan of that slug carrying the product id of the
plan. -/
def itemBuiltFor (lib : CartItems) (planSlug : String) (plan : StatePlan)
    (isJetpackNotAtomic : Bool) : CartItem :=
  if startsWith planSlug "jetpack_backup" && isJetpackNotAtomic then lib.jetpackProductItem planSlug
  else if startsWith planSlug "concierge-session" then lib.conciergeSessionItem ()
  else if startsWith planSlug "domain-mapping" then lib.domainMapping (secondPart planSlug)
  else if startsWith planSlug "theme" then lib.themeItem (secondPart planSlug)
  else { lib.planItem planSlug with product_id := plan.product_id }

/-! ## Country list -/

/-- An entry of a country list. -/
structure Country where
  code : String
  name : String
  deriving DecidableEq, Repr

/-- The action dispatched to the store by `useCountryList`. -/
inductive CountriesAction where
  | fetchPaymentCountries : CountriesAction
  deriving DecidableEq, Repr

/-- The expression `overrideCountryList || []` for the prop `overrideCountryList`:
an array, even an empty one, is truthy and is passed on as it is; a missing
prop gives a new empty array, whose identity is compared with nothing. -/
def overrideOrEmpty (overrideCountryList : Option (JsArray Country)) : JsArray Country :=
  match overrideCountryList with
  | some list => list
  | none => { ref := 0, elems := [] }

/-- The cells of `useCountryList`: the state `countriesList` (unset before the
first render, which initialises it with the argument of that render) and the
dependency array of the effect as of the previous render. -/
structure CountryList where
  countriesList : Option (JsArray Country)
  effectDeps : Option (Bool × Bool × Option Nat × Nat)
  deriving DecidableEq, Repr

/-- The cells on mount. -/
def CountryList.mount : CountryList := { countriesList := none, effectDeps := none }

/-- What one render of `useCountryList` does: the list it returns, the list it
hands to `setCountriesList` if it calls it, and the actions it dispatches. -/
structure CountryListOutcome where
  returned : JsArray Country
  stored : Option (JsArray Country)
  dispatched : List CountriesAction
  deriving DecidableEq, Repr

/-- One render of `useCountryList( overrideCountryList )` followed by its
effect.  `globalCountryList` is what `getCountries( state, 'payments' )`
answers (possibly nothing) and `dispatch` the identity of the store's
`dispatch`.  Returns the cells after the render and what the render did. -/
def useCountryList (h : CountryList) (overrideCountryList : JsArray Country)
    (globalCountryList : Option (JsArray Country)) (dispatch : Nat) :
    CountryList × CountryListOutcome :=
  let shouldFetchList := decide (overrideCountryList.length ≤ 0)
  let countriesList := h.countriesList.getD overrideCountryList
  let isListFetched :=
    match globalCountryList with
    | some list => decide (list.length > 0)
    | none => false
  let deps := (shouldFetchList, isListFetched, globalCountryList.map (fun list => list.ref), dispatch)
  let runs := depsChanged h.effectDeps deps
  let stored := if runs && shouldFetchList && isListFetched then globalCountryList else none
  let dispatched :=
    if runs && shouldFetchList && !isListFetched
    then [CountriesAction.fetchPaymentCountries] else []
  ({ countriesList := some (stored.getD countriesList), effectDeps := some deps },
    { returned := countriesList, stored := stored, dispatched := dispatched })

/-- What one render of `CompositeCheckout` gives to `useCountryList`: the prop
`overrideCountryList`, the country list of the store and `dispatch`. -/
structure CountryRender where
  overrideCountryList : Option (JsArray Country)
  globalCountryList : Option (JsArray Country)
  dispatch : Nat
  deriving DecidableEq, Repr

/-- The call `useCountryList( overrideCountryList || [] )` over successive
renders of `CompositeCheckout`, starting from cells `h`: what each render did,
in order. -/
def countryListLog (h : CountryList) : List CountryRender → List CountryListOutcome
  | [] => []
  | r :: rest =>
    let step := useCountryList h (overrideOrEmpty r.overrideCountryList) r.globalCountryList
      r.dispatch
    step.2 :: countryListLog step.1 rest

end CompositeCheckout

namespace EslintrcForPackages

/-! ## `packages/generate-eslintrc-for-packages.js` -/

/-- The values the generated configurations are made of: strings, booleans,
arrays, and objects with their keys in the order written. -/
inductive ConfigValue where
  | str (s : String) : ConfigValue
  | bool (b : Bool) : ConfigValue
  | arr (items : List ConfigValue) : ConfigValue
  | obj (fields : List (String × ConfigValue)) : ConfigValue

/-- The property `key` of an object, if it has one. -/
def ConfigValue.get (key : String) : ConfigValue → Option ConfigValue
  | .obj fields => fields.lookup key
  | _ => none

/-- An object without its property `key`. -/
def ConfigValue.without (key : String) : ConfigValue → ConfigValue
  | .obj fields => .obj (fields.filter (fun p => p.1 != key))
  | v => v

/-- An object with `f` applied to the value of its property `key`. -/
def ConfigValue.modify (key : String) (f : ConfigValue → ConfigValue) : ConfigValue → ConfigValue
  | .obj fields => .obj (fields.map (fun p => if p.1 == key then (p.1, f p.2) else p))
  | v => v

/-- An array with `f` applied to each of its items. -/
def ConfigValue.mapItems (f : ConfigValue → ConfigValue) : ConfigValue → ConfigValue
  | .arr items => .arr (items.map f)
  | v => v

/-- The function `generateForClient( dirname )`; `join` is `path.join` applied to
three segments. -/
def generateForClient (join : String → String → String → String) (dirname : String) :
    ConfigValue :=
  .obj [
    ("rules", .obj [
      ("import/no-extraneous-dependencies",
        .arr [.str "error", .obj [("packageDir", .str dirname)]])]),
    ("overrides", .arr [
      .obj [
        ("files", .arr [.str "**/test/**/*"]),
        ("rules", .obj [
          ("import/no-extraneous-dependencies",
            .arr [.str "error",
              .obj [("devDependencies", .bool true),
                    ("packageDir", .arr [.str dirname, .str (join dirname ".." "..")])]]),
          ("import/no-nodejs-modules", .str "off")])]])]

/-- The function `generateForServer( dirname )`; `join` is `path.join` applied to
three segments. -/
def generateForServer (join : String → String → String → String) (dirname : String) :
    ConfigValue :=
  .obj [
    ("parserOptions", .obj [("sourceType", .str "script")]),
    ("rules", .obj [
      ("import/no-extraneous-dependencies",
        .arr [.str "error", .obj [("packageDir", .str dirname)]]),
      ("import/no-nodejs-modules", .str "off")]),
    ("overrides", .arr [
      .obj [
        ("files", .arr [.str "**/test/**/*"]),
        ("parserOptions", .obj [("sourceType", .str "module")]),
        ("rules", .obj [
          ("import/no-extraneous-dependencies",
            .arr [.str "error",
              .obj [("devDependencies", .bool true),
                    ("packageDir", .arr [.str dirname, .str (join dirname ".." "..")])]]),
          ("import/no-nodejs-modules", .str "off")])]])]

end EslintrcForPackages

namespace CompositeCheckout

/-! ## Payment completion -/

/-- C1: with no site selected (`siteId` absent or empty) `onPaymentComplete`
redirects to `/checkout/thank-you//`, not to the root page `/`. -/
theorem onPaymentComplete_without_site :
    onPaymentComplete { siteSlug := none, siteId := SiteId.undefined } = "/checkout/thank-you//" ∧
    onPaymentComplete { siteSlug := some "", siteId := SiteId.str "" } = "/checkout/thank-you//" ∧
    onPaymentComplete { siteSlug := none, siteId := SiteId.undefined } ≠ "/" := by
  decide

/-- C2: for the site `foo.bar`, `onPaymentComplete` redirects to
`/checkout/thank-you/foo.bar/` with no identifier after the second slash, so
not to `/checkout/thank-you/foo.bar/1234abcd` when `1234abcd` is the purchase,
receipt or order id. -/
theorem onPaymentComplete_drops_identifier :
    onPaymentComplete { siteSlug := some "foo.bar", siteId := SiteId.str "foo.bar" }
      = "/checkout/thank-you/foo.bar/" ∧
    onPaymentComplete { siteSlug := some "foo.bar", siteId := SiteId.str "foo.bar" }
      ≠ "/checkout/thank-you/" ++ "foo.bar" ++ "/" ++ "1234abcd" := by
  decide

/-- C3: for the site `foo.bar`, `onPaymentComplete` does not redirect to the
placeholder address `/checkout/thank-you/foo.bar/:receiptId`; the target does
not depend on the cart holding an item. -/
theorem onPaymentComplete_no_placeholder :
    onPaymentComplete { siteSlug := some "foo.bar", siteId := SiteId.str "foo.bar" }
      ≠ "/checkout/thank-you/" ++ "foo.bar" ++ "/:receiptId" := by
  decide

/-- C4: for a site whose slug is `foo.bar` and whose id is the number 123, with
an empty cart and no identifier (neither of which the callback reads),
`onPaymentComplete` redirects to `/checkout/thank-you/123/`: the site segment
is the `siteId` prop, not the site slug, so the target is not
`/checkout/thank-you/foo.bar/`. -/
theorem onPaymentComplete_not_from_slug :
    onPaymentComplete
        { siteSlug := some "foo.bar", siteId := SiteId.num { falsy := false, printed := "123" } }
      = "/checkout/thank-you/123/" ∧
    ¬ (onPaymentComplete
        { siteSlug := some "foo.bar", siteId := SiteId.num { falsy := false, printed := "123" } }
      = "/checkout/thank-you/" ++ "foo.bar" ++ "/") := by
  decide

/-! ## Items handed to the checkout provider -/

/-- C5: the sequence handed to the checkout provider is empty when `items` is
empty and is `items` followed by the tax line as single last element
otherwise; it is never the tax line alone. -/
theorem itemsForCheckout_tax_last {α : Type} (items : List α) (tax : α) :
    ((items = [] ∧ itemsForCheckout items tax = []) ∨
      (items ≠ [] ∧ itemsForCheckout items tax = items ++ [tax] ∧
        (itemsForCheckout items tax).getLast? = some tax ∧
        (itemsForCheckout items tax).dropLast = items)) ∧
    itemsForCheckout items tax ≠ [tax] := by
  cases items with
  | nil => simp [itemsForCheckout]
  | cons item rest =>
    have h1 : ((item :: rest) ++ [tax]).getLast? = some tax := List.getLast?_concat _
    have h2 : ((item :: rest) ++ [tax]).dropLast = item :: rest := List.dropLast_concat
    simpa [itemsForCheckout] using And.intro h1 h2

/-! ## Loading flags -/

theorem paymentMethods_deps (cell : Option (MemoCell (Bool × Bool × Nat) Bool))
    (r : LoadingRender) :
    (paymentMethods cell r).deps = (r.isLoading, r.isLoadingStoredCards, r.otherDeps) := by
  unfold paymentMethods useMemo
  cases cell with
  | none => rfl
  | some c =>
    by_cases hc : c.deps = (r.isLoading, r.isLoadingStoredCards, r.otherDeps)
    · simp [depsChanged, hc]
    · simp [depsChanged, hc]

theorem paymentMethods_fresh (cell : Option (MemoCell (Bool × Bool × Nat) Bool))
    (r : LoadingRender) (hcell : MemoFresh cell) :
    MemoFresh (some (paymentMethods cell r)) := by
  intro c hc
  cases hc
  unfold paymentMethods useMemo
  cases cell with
  | none => rfl
  | some c =>
    by_cases hd : c.deps = (r.isLoading, r.isLoadingStoredCards, r.otherDeps)
    · simpa [depsChanged, hd] using hcell c rfl
    · simp [depsChanged, hd]

theorem foldl_paymentMethods_fresh (rs : List LoadingRender) :
    ∀ cell, MemoFresh cell →
      MemoFresh (rs.foldl (fun cell r => some (paymentMethods cell r)) cell) := by
  induction rs with
  | nil => intro cell h; exact h
  | cons r rest ih =>
    intro cell h
    exact ih _ (paymentMethods_fresh cell r h)

/-- C7: at every render, after any series of earlier renders, the checkout
provider is told it is loading exactly when the cart or the stored cards are
loading, the payment-method factory was last called with that same value, and
both see "not loading" exactly when both loads have settled. -/
theorem isLoading_iff_either_loading (rs : List LoadingRender) (r : LoadingRender) :
    (checkoutProviderIsLoading r = true ↔ (r.isLoading = true ∨ r.isLoadingStoredCards = true)) ∧
    ((paymentMethods (paymentMethodsAfter rs) r).value = true ↔
      (r.isLoading = true ∨ r.isLoadingStoredCards = true)) ∧
    (checkoutProviderIsLoading r = false ↔
      (r.isLoading = false ∧ r.isLoadingStoredCards = false)) ∧
    ((paymentMethods (paymentMethodsAfter rs) r).value = false ↔
      (r.isLoading = false ∧ r.isLoadingStoredCards = false)) := by
  have hfresh : MemoFresh (paymentMethodsAfter rs) :=
    foldl_paymentMethods_fresh rs none (fun c hc => by cases hc)
  have hval := paymentMethods_fresh _ r hfresh _ rfl
  rw [paymentMethods_deps] at hval
  simp only [hval, checkoutProviderIsLoading]
  cases r.isLoading <;> cases r.isLoadingStoredCards <;> simp

/-! ## Redirect when the cart becomes empty -/

theorem depsChanged_eq_true {δ : Type} [DecidableEq δ] (prev : Option δ) (cur : δ) :
    depsChanged prev cur = true ↔ prev ≠ some cur := by
  simp [depsChanged]

theorem emptiedAt_cons_cons {α : Type} (a b : CartRender α) (rest : List (CartRender α)) :
    emptiedAt (a :: b :: rest) =
      (if decide (a.items.length > 0) && (b.items.length == 0) then [plansUrl b.props] else [])
        ++ emptiedAt (b :: rest) := by
  have hb : (!a.items.elems.isEmpty && b.items.elems.isEmpty)
      = (decide (a.items.length > 0) && (b.items.length == 0)) := by
    unfold JsArray.length
    cases a.items.elems <;> cases b.items.elems <;> simp
  simp only [emptiedAt, List.tail_cons, List.zip_cons_cons, List.filter_cons, hb]
  split <;> simp

theorem useRedirectIfCartEmpty_settled {α : Type} (a b : CartRender α) (h : RedirectIfCartEmpty)
    (url : String) (hs : RedirectSettled a h)
    (himm : a.items.ref = b.items.ref → a.items.elems = b.items.elems) :
    RedirectSettled b (useRedirectIfCartEmpty h b.items url).1 ∧
    (useRedirectIfCartEmpty h b.items url).2 =
      (if decide (a.items.length > 0) && (b.items.length == 0) then [url] else []) := by
  obtain ⟨hlen, hdeps1, u, p, hdeps2⟩ := hs
  constructor
  · refine ⟨?_, rfl, _, _, rfl⟩
    show (if depsChanged h.itemsDeps b.items.ref then b.items.length else h.prevItemsLength)
      = b.items.length
    by_cases hr : a.items.ref = b.items.ref
    · have hnot : depsChanged h.itemsDeps b.items.ref = false := by
        simp [depsChanged, hdeps1, hr]
      rw [hnot, hlen]
      simp [JsArray.length, himm hr]
    · have hyes : depsChanged h.itemsDeps b.items.ref = true := by
        simp [depsChanged, hdeps1, hr]
      rw [hyes]
      simp
  · show (if depsChanged h.redirectDeps (url, b.items.ref, h.prevItemsLength)
        && (decide (h.prevItemsLength > 0) && (b.items.length == 0)) then [url] else [])
      = _
    rw [hlen]
    by_cases hc : (decide (a.items.length > 0) && (b.items.length == 0)) = true
    · have hr : a.items.ref ≠ b.items.ref := by
        intro hr
        have he := himm hr
        simp only [JsArray.length, he, Bool.and_eq_true, decide_eq_true_eq, beq_iff_eq] at hc
        omega
      have hyes : depsChanged h.redirectDeps (url, b.items.ref, a.items.length) = true := by
        rw [depsChanged_eq_true, hdeps2]
        intro heq
        simp only [Option.some.injEq, Prod.mk.injEq] at heq
        exact hr heq.2.1
      simp [hyes, hc]
    · simp only [Bool.not_eq_true] at hc
      simp [hc]

theorem redirectLog_settled {α : Type} (rs : List (CartRender α)) :
    ∀ (a : CartRender α) (h : RedirectIfCartEmpty), RedirectSettled a h →
      List.Chain (fun a b => a.items.ref = b.items.ref → a.items.elems = b.items.elems) a rs →
      redirectLog h rs = emptiedAt (a :: rs) := by
  induction rs with
  | nil => intro a h _ _; simp [redirectLog, emptiedAt]
  | cons b rest ih =>
    intro a h hs hchain
    rw [List.chain_cons] at hchain
    obtain ⟨hnext, hnav⟩ := useRedirectIfCartEmpty_settled a b h (plansUrl b.props) hs hchain.1
    rw [emptiedAt_cons_cons]
    show (useRedirectIfCartEmpty h b.items (plansUrl b.props)).2
      ++ redirectLog (useRedirectIfCartEmpty h b.items (plansUrl b.props)).1 rest = _
    rw [hnav, ih b _ hnext hchain.2]

theorem useRedirectIfCartEmpty_mount {α : Type} (a : CartRender α) (url : String) :
    RedirectSettled a (useRedirectIfCartEmpty RedirectIfCartEmpty.mount a.items url).1 ∧
    (useRedirectIfCartEmpty RedirectIfCartEmpty.mount a.items url).2 = [] := by
  constructor
  · refine ⟨?_, rfl, _, _, rfl⟩
    simp [useRedirectIfCartEmpty, RedirectIfCartEmpty.mount, depsChanged]
  · simp [useRedirectIfCartEmpty, RedirectIfCartEmpty.mount]

/-- C6: over any series of renders from mount in which arrays are not mutated
in place, `useRedirectIfCartEmpty` assigns the fallback URL (`/plans/` and the
site slug of that render) to `window.location` once for each pair of
successive renders whose cart goes from non-empty to empty, in order, and at
no other render; a first render makes no assignment, whatever its cart. -/
theorem redirect_once_per_emptying {α : Type} (rs : List (CartRender α))
    (himm : ItemsImmutable rs) :
    redirectLog RedirectIfCartEmpty.mount rs =
      ((rs.zip rs.tail).filter
        (fun p => !p.1.items.elems.isEmpty && p.2.items.elems.isEmpty)).map
        (fun p => "/plans/" ++ slugOrEmpty p.2.props.siteSlug) ∧
    (redirectLog RedirectIfCartEmpty.mount rs).length =
      (rs.zip rs.tail).countP
        (fun p => !p.1.items.elems.isEmpty && p.2.items.elems.isEmpty) ∧
    redirectLog RedirectIfCartEmpty.mount (rs.take 1) = [] := by
  have hlog : ∀ (l : List (CartRender α)), ItemsImmutable l →
      redirectLog RedirectIfCartEmpty.mount l = emptiedAt l := by
    intro l hl
    cases l with
    | nil => simp [redirectLog, emptiedAt]
    | cons a rest =>
      obtain ⟨hs, hnav⟩ := useRedirectIfCartEmpty_mount a (plansUrl a.props)
      show (useRedirectIfCartEmpty RedirectIfCartEmpty.mount a.items (plansUrl a.props)).2
        ++ redirectLog (useRedirectIfCartEmpty RedirectIfCartEmpty.mount a.items
          (plansUrl a.props)).1 rest = _
      rw [hnav, List.nil_append]
      exact redirectLog_settled rest a _ hs hl
  have hmain := hlog rs himm
  refine ⟨hmain, ?_, ?_⟩
  · rw [hmain, emptiedAt, List.length_map, List.countP_eq_length_filter]
  · cases rs with
    | nil => simp [redirectLog]
    | cons a rest =>
      have h1 := hlog [a] (List.chain'_singleton a)
      simpa [emptiedAt] using h1

/-- Witness for `redirect_once_per_emptying`: a cart with one item, rendered
twice, emptied, then rendered empty twice more, for the site `foo.bar`. -/
theorem redirect_once_per_emptying_witness :
    redirectLog RedirectIfCartEmpty.mount
      [ ({ items := { ref := 0, elems := [7] }, props := ⟨some "foo.bar", SiteId.num { falsy := false, printed := "1" }⟩ } :
          CartRender Nat),
        { items := { ref := 0, elems := [7] }, props := ⟨some "foo.bar", SiteId.num { falsy := false, printed := "1" }⟩ },
        { items := { ref := 1, elems := [] }, props := ⟨some "foo.bar", SiteId.num { falsy := false, printed := "1" }⟩ },
        { items := { ref := 1, elems := [] }, props := ⟨some "foo.bar", SiteId.num { falsy := false, printed := "1" }⟩ },
        { items := { ref := 2, elems := [] }, props := ⟨some "foo.bar", SiteId.num { falsy := false, printed := "1" }⟩ } ]
      = ["/plans/foo.bar"] :=
  (redirect_once_per_emptying _ (by simp [ItemsImmutable])).1.trans (by decide)

/-! ## Error display -/

theorem useDisplayErrors_mount (translate : Translate) (errors : JsArray CartError) :
    DisplaySettled translate errors.ref
      (useDisplayErrors DisplayErrors.mount errors translate).1 ∧
    (useDisplayErrors DisplayErrors.mount errors translate).2 =
      errors.elems.map (fun e => showErrorMessage translate e.message) := by
  constructor
  · exact ⟨0, 0, _, rfl, rfl, rfl⟩
  · simp [useDisplayErrors, DisplayErrors.mount, useMemo, depsChanged]

theorem useDisplayErrors_settled (translate : Translate) (last : Nat) (h : DisplayErrors)
    (errors : JsArray CartError) (hs : DisplaySettled translate last h)
    (hnew : last ≠ errors.ref) :
    DisplaySettled translate errors.ref (useDisplayErrors h errors translate).1 ∧
    (useDisplayErrors h errors translate).2 =
      errors.elems.map (fun e => showErrorMessage translate e.message) := by
  obtain ⟨g, g', v, h1, h2, h3⟩ := hs
  have hcb : useMemo h.showErrorMessage translate.ref (fun _ => translate)
      = { deps := translate.ref, value := translate, gen := g } := by
    simp [h1, useMemo, depsChanged]
  have hmemo : useMemo h.errorMessages errors.ref
      (fun _ => errors.elems.map (fun error => error.message))
      = { deps := errors.ref, value := errors.elems.map (fun error => error.message),
          gen := g' + 1 } := by
    simp [h2, useMemo, depsChanged, hnew]
  constructor
  · refine ⟨g, g' + 1, errors.elems.map (fun error => error.message), ?_, ?_, ?_⟩
    · show some (useMemo h.showErrorMessage translate.ref (fun _ => translate)) = _
      rw [hcb]
    · show some (useMemo h.errorMessages errors.ref
        (fun _ => errors.elems.map (fun error => error.message))) = _
      rw [hmemo]
    · show some ((useMemo h.errorMessages errors.ref
        (fun _ => errors.elems.map (fun error => error.message))).gen,
        (useMemo h.showErrorMessage translate.ref (fun _ => translate)).gen) = _
      rw [hmemo, hcb]
  · show (if depsChanged h.effectDeps
        ((useMemo h.errorMessages errors.ref
          (fun _ => errors.elems.map (fun error => error.message))).gen,
         (useMemo h.showErrorMessage translate.ref (fun _ => translate)).gen)
      then (useMemo h.errorMessages errors.ref
          (fun _ => errors.elems.map (fun error => error.message))).value.map
            (showErrorMessage (useMemo h.showErrorMessage translate.ref
              (fun _ => translate)).value)
      else []) = _
    rw [hmemo, hcb, h3]
    simp [depsChanged]

theorem displayLog_settled (translate : Translate) (rs : List (JsArray CartError)) :
    ∀ (last : Nat) (h : DisplayErrors), DisplaySettled translate last h →
      List.Chain (fun a b => a ≠ b) last (rs.map (fun a => a.ref)) →
      displayLog translate h rs =
        (rs.map (fun a => a.elems.map (fun e => showErrorMessage translate e.message))).flatten := by
  induction rs with
  | nil => intro last h _ _; simp [displayLog]
  | cons a rest ih =>
    intro last h hs hchain
    rw [List.map_cons, List.chain_cons] at hchain
    obtain ⟨hnext, hshown⟩ := useDisplayErrors_settled translate last h a hs hchain.1
    show (useDisplayErrors h a translate).2
      ++ displayLog translate (useDisplayErrors h a translate).1 rest = _
    rw [hshown, ih a.ref _ hnext hchain.2]
    simp

theorem displayLog_mount (translate : Translate) (rs : List (JsArray CartError))
    (hchain : List.Chain' (fun a b => a ≠ b) (rs.map (fun a => a.ref))) :
    displayLog translate DisplayErrors.mount rs =
      (rs.map (fun a => a.elems.map (fun e => showErrorMessage translate e.message))).flatten := by
  cases rs with
  | nil => simp [displayLog]
  | cons a rest =>
    obtain ⟨hnext, hshown⟩ := useDisplayErrors_mount translate a
    show (useDisplayErrors DisplayErrors.mount a translate).2
      ++ displayLog translate (useDisplayErrors DisplayErrors.mount a translate).1 rest = _
    rw [hshown, displayLog_settled translate rest a.ref _ hnext hchain]
    simp

theorem chain_ne_range' : ∀ (n s a : Nat), a < s →
    List.Chain (fun a b => a ≠ b) a (List.range' s n) := by
  intro n
  induction n with
  | zero => intro s a _; simp
  | succ n ih =>
    intro s a has
    rw [List.range'_succ, List.chain_cons]
    exact ⟨by omega, ih (s + 1) s (by omega)⟩

theorem appendSession_refs (es : List CartError) :
    (appendSession es).map (fun a => a.ref) = List.range (es.length + 1) := by
  simp [appendSession, Function.comp_def]

/-- C8, as stated, fails: in a session where the error `second` is appended
after the error `first`, `first` reaches `notices.error` twice. -/
theorem displayErrors_shows_earlier_error_again :
    displayLog { ref := 0, apply := fun s => s } DisplayErrors.mount
        (appendSession [{ message := some "first" }, { message := some "second" }])
      = ["first", "first", "second"] ∧
    (displayLog { ref := 0, apply := fun s => s } DisplayErrors.mount
        (appendSession [{ message := some "first" }, { message := some "second" }])).count "first"
      ≠ 1 := by
  decide

/-- C8, amended: in a session in which each new error is appended to the list,
every change of the list sends the whole list to `notices.error` again, in
order: the calls made over the session are the successive error lists one after
another, so an error is dispatched once when it is appended and once more for
every error appended after it. -/
theorem displayErrors_dispatches_every_list (translate : Translate) (es : List CartError) :
    displayLog translate DisplayErrors.mount (appendSession es) =
      ((List.range (es.length + 1)).map
        (fun k => (es.take k).map (fun e => showErrorMessage translate e.message))).flatten := by
  have hchain : List.Chain' (fun a b => a ≠ b) ((appendSession es).map (fun a => a.ref)) := by
    rw [appendSession_refs, List.range_eq_range', List.range'_succ]
    exact chain_ne_range' _ _ _ (by omega)
  rw [displayLog_mount translate _ hchain]
  simp [appendSession, Function.comp_def]

/-! ## Catalog requests -/

theorem fetchOnce_count (flag should changed : Bool) (a : Action) :
    (if changed && (should && !flag)
      then [Action.requestPlans, Action.requestProductsList] else []).count a
    + (if (if changed && (should && !flag) then true else flag) then 0 else 1)
    ≤ (if flag then 0 else 1) := by
  cases flag <;> cases should <;> cases changed <;> cases a <;> simp

theorem useVariantWpcomPlanProductSlugs_count (h : FetchOnce) (c : Catalog)
    (productSlug : String) (a : Action) :
    (useVariantWpcomPlanProductSlugs h c productSlug).2.1.count a
      + (useVariantWpcomPlanProductSlugs h c productSlug).1.remaining ≤ h.remaining :=
  fetchOnce_count h.haveFetched (c.getPlan productSlug).isNone
    (depsChanged h.deps (h.haveFetched, (c.getPlan productSlug).isNone)) a

theorem useWpcomProductVariants_count (h : WpcomProductVariants) (c : Catalog)
    (productSlug : String) (a : Action) :
    (useWpcomProductVariants h c productSlug).2.count a
      + ((useWpcomProductVariants h c productSlug).1.plans.remaining
        + (useWpcomProductVariants h c productSlug).1.products.remaining)
      ≤ h.plans.remaining + h.products.remaining := by
  have hinner := useVariantWpcomPlanProductSlugs_count h.plans c productSlug a
  have houter := fetchOnce_count h.products.haveFetched
    (c.computeProductsWithPrices (useVariantWpcomPlanProductSlugs h.plans c productSlug).2.2).isNone
    (depsChanged h.products.deps
      ((c.computeProductsWithPrices
        (useVariantWpcomPlanProductSlugs h.plans c productSlug).2.2).isNone,
        h.products.haveFetched)) a
  simp only [useWpcomProductVariants, List.count_append, FetchOnce.remaining] at *
  omega

/-- Over any series of renders each request is dispatched at most once by each
of the two guards, hence at most twice by the component. -/
theorem dispatchLog_count_le (rs : List (Catalog × String)) (a : Action) :
    ∀ h : WpcomProductVariants,
      (dispatchLog h rs).count a ≤ h.plans.remaining + h.products.remaining := by
  induction rs with
  | nil => intro h; simp [dispatchLog]
  | cons r rest ih =>
    intro h
    have hstep := useWpcomProductVariants_count h r.1 r.2 a
    have hrest := ih (useWpcomProductVariants h r.1 r.2).1
    show ((useWpcomProductVariants h r.1 r.2).2
      ++ dispatchLog (useWpcomProductVariants h r.1 r.2).1 rest).count a ≤ _
    rw [List.count_append]
    omega

/-- From mount, over any series of renders, neither request is dispatched more
than twice. -/
theorem dispatchLog_mount_count_le_two (rs : List (Catalog × String)) (a : Action) :
    (dispatchLog WpcomProductVariants.mount rs).count a ≤ 2 :=
  dispatchLog_count_le rs a WpcomProductVariants.mount

/-- Were `computeProductsWithPrices` to answer a falsy value on the first
render, for a product slug that `getPlan` does not know, both effects would
fire and each request would be dispatched twice. -/
theorem catalog_requests_dispatched_twice :
    dispatchLog WpcomProductVariants.mount
        [({ getPlan := fun _ => none, findPlansKeys := fun _ _ => [], GROUP_WPCOM := "wpcom",
            computeProductsWithPrices := fun _ => none }, "domain_map")]
      = [Action.requestPlans, Action.requestProductsList,
         Action.requestPlans, Action.requestProductsList] ∧
    (dispatchLog WpcomProductVariants.mount
        [({ getPlan := fun _ => none, findPlansKeys := fun _ _ => [], GROUP_WPCOM := "wpcom",
            computeProductsWithPrices := fun _ => none }, "domain_map")]).count
      Action.requestPlans = 2 ∧
    (dispatchLog WpcomProductVariants.mount
        [({ getPlan := fun _ => none, findPlansKeys := fun _ _ => [], GROUP_WPCOM := "wpcom",
            computeProductsWithPrices := fun _ => none }, "domain_map")]).count
      Action.requestProductsList = 2 := by
  decide

/-- While `computeProductsWithPrices` answers an array, the effect of
`useWpcomProductVariants` itself dispatches nothing and leaves its flag as it
was; what a render dispatches is what `useVariantWpcomPlanProductSlugs`
dispatches. -/
theorem useWpcomProductVariants_count_plans (h : WpcomProductVariants) (c : Catalog)
    (productSlug : String) (a : Action)
    (hsel : ∀ slugs, (c.computeProductsWithPrices slugs).isSome = true) :
    (useWpcomProductVariants h c productSlug).2.count a
      + (useWpcomProductVariants h c productSlug).1.plans.remaining ≤ h.plans.remaining := by
  have hinner := useVariantWpcomPlanProductSlugs_count h.plans c productSlug a
  have hnone : (c.computeProductsWithPrices
      (useVariantWpcomPlanProductSlugs h.plans c productSlug).2.2).isNone = false := by
    have := hsel (useVariantWpcomPlanProductSlugs h.plans c productSlug).2.2
    cases hv : c.computeProductsWithPrices
        (useVariantWpcomPlanProductSlugs h.plans c productSlug).2.2 with
    | none => rw [hv] at this; simp at this
    | some v => rfl
  simp only [useWpcomProductVariants, hnone, Bool.false_and, Bool.and_false]
  simpa using hinner

theorem dispatchLog_count_le_plans (rs : List (Catalog × String)) (a : Action)
    (hsel : ∀ r ∈ rs, ∀ slugs, (r.1.computeProductsWithPrices slugs).isSome = true) :
    ∀ h : WpcomProductVariants, (dispatchLog h rs).count a ≤ h.plans.remaining := by
  induction rs with
  | nil => intro h; simp [dispatchLog]
  | cons r rest ih =>
    intro h
    have hstep := useWpcomProductVariants_count_plans h r.1 r.2 a
      (hsel r (List.mem_cons_self r rest))
    have hrest := ih (fun r' hr' => hsel r' (List.mem_cons_of_mem r hr'))
      (useWpcomProductVariants h r.1 r.2).1
    show ((useWpcomProductVariants h r.1 r.2).2
      ++ dispatchLog (useWpcomProductVariants h r.1 r.2).1 rest).count a ≤ _
    rw [List.count_append]
    omega

/-- C9: over every series of renders, from mount, of a component that calls
`useWpcomProductVariants`, `requestPlans` is dispatched at most once and
`requestProductsList` is dispatched at most once, however many renders find
the plan missing, as long as `computeProductsWithPrices` answers an array (the
hook calls `productsWithPrices.map` on the answer without a guard). -/
theorem catalog_requests_dispatched_at_most_once (rs : List (Catalog × String))
    (hsel : ∀ r ∈ rs, ∀ slugs, (r.1.computeProductsWithPrices slugs).isSome = true) :
    (dispatchLog WpcomProductVariants.mount rs).count Action.requestPlans ≤ 1 ∧
    (dispatchLog WpcomProductVariants.mount rs).count Action.requestProductsList ≤ 1 :=
  ⟨dispatchLog_count_le_plans rs _ hsel WpcomProductVariants.mount,
    dispatchLog_count_le_plans rs _ hsel WpcomProductVariants.mount⟩

/-- Witness for `catalog_requests_dispatched_at_most_once`: three renders for
the slug `domain_map`, which `getPlan` never knows, with no priced plan to
show: the two requests go out on the first render and never again. -/
theorem catalog_requests_dispatched_at_most_once_witness :
    ((dispatchLog WpcomProductVariants.mount
        [({ getPlan := fun _ => none, findPlansKeys := fun _ _ => [], GROUP_WPCOM := "wpcom",
            computeProductsWithPrices := fun _ => some [] }, "domain_map"),
         ({ getPlan := fun _ => none, findPlansKeys := fun _ _ => [], GROUP_WPCOM := "wpcom",
            computeProductsWithPrices := fun _ => some [] }, "domain_map"),
         ({ getPlan := fun _ => none, findPlansKeys := fun _ _ => [], GROUP_WPCOM := "wpcom",
            computeProductsWithPrices := fun _ => some [] }, "domain_map")]).count
        Action.requestPlans ≤ 1 ∧
      (dispatchLog WpcomProductVariants.mount
        [({ getPlan := fun _ => none, findPlansKeys := fun _ _ => [], GROUP_WPCOM := "wpcom",
            computeProductsWithPrices := fun _ => some [] }, "domain_map"),
         ({ getPlan := fun _ => none, findPlansKeys := fun _ _ => [], GROUP_WPCOM := "wpcom",
            computeProductsWithPrices := fun _ => some [] }, "domain_map"),
         ({ getPlan := fun _ => none, findPlansKeys := fun _ _ => [], GROUP_WPCOM := "wpcom",
            computeProductsWithPrices := fun _ => some [] }, "domain_map")]).count
        Action.requestProductsList ≤ 1) ∧
    dispatchLog WpcomProductVariants.mount
        [({ getPlan := fun _ => none, findPlansKeys := fun _ _ => [], GROUP_WPCOM := "wpcom",
            computeProductsWithPrices := fun _ => some [] }, "domain_map"),
         ({ getPlan := fun _ => none, findPlansKeys := fun _ _ => [], GROUP_WPCOM := "wpcom",
            computeProductsWithPrices := fun _ => some [] }, "domain_map"),
         ({ getPlan := fun _ => none, findPlansKeys := fun _ _ => [], GROUP_WPCOM := "wpcom",
            computeProductsWithPrices := fun _ => some [] }, "domain_map")]
      = [Action.requestPlans, Action.requestProductsList] :=
  ⟨catalog_requests_dispatched_at_most_once _ (by
      intro r hr slugs
      simp only [List.mem_cons, List.mem_singleton, List.not_mem_nil, or_false] at hr
      rcases hr with rfl | rfl | rfl <;> rfl),
    by decide⟩

/-! ## Adding the product named in the URL -/

theorem lookup_map_set_ne (key k : String) (value : ExtraValue) (hk : k ≠ key) :
    ∀ l : JsObject,
      (l.map (fun p => if p.1 == key then (p.1, value) else p)).lookup k = l.lookup k := by
  intro l
  induction l with
  | nil => rfl
  | cons p rest ih =>
    obtain ⟨pk, pv⟩ := p
    rw [List.map_cons]
    by_cases hp : pk = key
    · have hf : (if ((pk, pv).1 == key) = true then ((pk, pv).1, value) else (pk, pv))
          = (pk, value) := by simp [hp]
      have hne : (k == pk) = false := by
        rw [hp]
        simpa using hk
      rw [hf, List.lookup_cons, List.lookup_cons, hne]
      exact ih
    · have hf : (if ((pk, pv).1 == key) = true then ((pk, pv).1, value) else (pk, pv))
          = (pk, pv) := by simp [hp]
      rw [hf, List.lookup_cons, List.lookup_cons, ih]

theorem lookup_append_set_ne (key k : String) (value : ExtraValue) (hk : k ≠ key) :
    ∀ l : JsObject, (l ++ [(key, value)]).lookup k = l.lookup k := by
  intro l
  induction l with
  | nil =>
    have hne : (k == key) = false := by simpa using hk
    simp [List.lookup_cons, hne]
  | cons p rest ih =>
    obtain ⟨pk, pv⟩ := p
    simp only [List.cons_append, List.lookup_cons, ih]

theorem lookup_map_set_self (key : String) (value : ExtraValue) :
    ∀ l : JsObject, l.any (fun p => p.1 == key) = true →
      (l.map (fun p => if p.1 == key then (p.1, value) else p)).lookup key = some value := by
  intro l
  induction l with
  | nil => intro h; simp at h
  | cons p rest ih =>
    obtain ⟨pk, pv⟩ := p
    intro h
    rw [List.map_cons]
    by_cases hp : pk = key
    · have hf : (if ((pk, pv).1 == key) = true then ((pk, pv).1, value) else (pk, pv))
          = (pk, value) := by simp [hp]
      have heq : (key == pk) = true := by simp [hp]
      rw [hf, List.lookup_cons, heq]
    · have hf : (if ((pk, pv).1 == key) = true then ((pk, pv).1, value) else (pk, pv))
          = (pk, pv) := by simp [hp]
      have hne : (pk == key) = false := by simpa using hp
      have hne2 : (key == pk) = false := by simpa using Ne.symm hp
      rw [List.any_cons] at h
      simp only [hne, Bool.false_or] at h
      rw [hf, List.lookup_cons, hne2]
      exact ih h

theorem lookup_append_set_self (key : String) (value : ExtraValue) :
    ∀ l : JsObject, l.any (fun p => p.1 == key) = false →
      (l ++ [(key, value)]).lookup key = some value := by
  intro l
  induction l with
  | nil => intro _; simp [List.lookup_cons]
  | cons p rest ih =>
    obtain ⟨pk, pv⟩ := p
    intro h
    rw [List.any_cons, Bool.or_eq_false_iff] at h
    have hp : pk ≠ key := by simpa using h.1
    have hne2 : (key == pk) = false := by simpa using Ne.symm hp
    rw [List.cons_append, List.lookup_cons, hne2]
    exact ih h.2

/-- After `{ ...source, key: value }` the key holds the value. -/
theorem lookup_spreadThenSet_self (source : Option JsObject) (key : String) (value : ExtraValue) :
    (spreadThenSet source key value).lookup key = some value := by
  unfold spreadThenSet
  by_cases h : (source.getD []).any (fun p => p.1 == key) = true
  · simp only [h, if_true]
    exact lookup_map_set_self key value _ h
  · simp only [h]
    exact lookup_append_set_self key value _ (Bool.eq_false_iff.mpr h)

/-- After `{ ...source, key: value }` every other key holds what it held in
`source`, and is missing if it was missing there. -/
theorem lookup_spreadThenSet_ne (source : Option JsObject) (key k : String) (value : ExtraValue)
    (hk : k ≠ key) :
    (spreadThenSet source key value).lookup k = (source.getD []).lookup k := by
  unfold spreadThenSet
  by_cases h : (source.getD []).any (fun p => p.1 == key) = true
  · simp only [h, if_true]
    exact lookup_map_set_ne key k value hk _
  · simp only [h]
    exact lookup_append_set_ne key k value hk _

/-- The successive `if` statements leave in `cartItem` the item built for the
slug, and the last statement sets `context` in its `extra`. -/
theorem createItemToAddToCart_eq (lib : CartItems) (planSlug : String) (plan : StatePlan)
    (isJetpackNotAtomic : Bool) (h : planSlug ≠ "") :
    createItemToAddToCart lib planSlug plan isJetpackNotAtomic =
      some { itemBuiltFor lib planSlug plan isJetpackNotAtomic with
        extra := some (spreadThenSet (itemBuiltFor lib planSlug plan isJetpackNotAtomic).extra
          "context" (ExtraValue.str "calypstore")) } := by
  have hs : (planSlug != "") = true := by simpa using h
  unfold createItemToAddToCart itemBuiltFor
  simp only [hs, if_true]
  cases startsWith planSlug "theme" <;> cases startsWith planSlug "domain-mapping" <;>
    cases startsWith planSlug "concierge-session" <;>
    cases (startsWith planSlug "jetpack_backup" && isJetpackNotAtomic) <;> simp

/-- C11: for every non-empty plan slug, plan and `isJetpackNotAtomic` flag,
`createItemToAddToCart` returns an item whose `extra` holds `calypstore` under
`context` and, under every other key, exactly what the `extra` of the item
built for that slug holds (nothing where that item has no such key); the other
properties of the item are those of the item built for the slug. -/
theorem createItemToAddToCart_extra (lib : CartItems) (planSlug : String) (plan : StatePlan)
    (isJetpackNotAtomic : Bool) (h : planSlug ≠ "") :
    ∃ item extra,
      createItemToAddToCart lib planSlug plan isJetpackNotAtomic = some item ∧
      item.extra = some extra ∧
      extra.lookup "context" = some (ExtraValue.str "calypstore") ∧
      (∀ k, k ≠ "context" →
        extra.lookup k =
          ((itemBuiltFor lib planSlug plan isJetpackNotAtomic).extra.getD []).lookup k) ∧
      item.product_id = (itemBuiltFor lib planSlug plan isJetpackNotAtomic).product_id ∧
      item.others = (itemBuiltFor lib planSlug plan isJetpackNotAtomic).others :=
  ⟨_, _, createItemToAddToCart_eq lib planSlug plan isJetpackNotAtomic h, rfl,
    lookup_spreadThenSet_self _ _ _, fun k hk => lookup_spreadThenSet_ne _ _ k _ hk, rfl, rfl⟩

/-- Witness for `createItemToAddToCart_extra`: the slug `theme:pub`, with a
theme builder whose item already carries a `source` and a `context`. -/
theorem createItemToAddToCart_extra_witness :
    ∃ item extra,
      createItemToAddToCart
        { planItem := fun slug => ⟨none, none, [("product_slug", ExtraValue.str slug)]⟩,
          themeItem := fun meta =>
            ⟨none, some [("source", ExtraValue.str "showcase"), ("context", ExtraValue.str "old")],
              [("meta", ExtraValue.str (meta.getD "undefined"))]⟩,
          domainMapping := fun meta => ⟨none, none, [("meta", ExtraValue.str (meta.getD "undefined"))]⟩,
          conciergeSessionItem := fun _ => ⟨none, none, []⟩,
          jetpackProductItem := fun slug => ⟨none, none, [("product_slug", ExtraValue.str slug)]⟩ }
        "theme:pub" { product_id := some 1009 } false = some item ∧
      item.extra = some extra ∧
      extra.lookup "context" = some (ExtraValue.str "calypstore") ∧
      extra.lookup "source" = some (ExtraValue.str "showcase") := by
  obtain ⟨item, extra, h1, h2, h3, h4, _, _⟩ := createItemToAddToCart_extra
    { planItem := fun slug => ⟨none, none, [("product_slug", ExtraValue.str slug)]⟩,
      themeItem := fun meta =>
        ⟨none, some [("source", ExtraValue.str "showcase"), ("context", ExtraValue.str "old")],
          [("meta", ExtraValue.str (meta.getD "undefined"))]⟩,
      domainMapping := fun meta => ⟨none, none, [("meta", ExtraValue.str (meta.getD "undefined"))]⟩,
      conciergeSessionItem := fun _ => ⟨none, none, []⟩,
      jetpackProductItem := fun slug => ⟨none, none, [("product_slug", ExtraValue.str slug)]⟩ }
    "theme:pub" { product_id := some 1009 } false (by decide)
  exact ⟨item, extra, h1, h2, h3, (h4 "source" (by decide)).trans (by decide)⟩

/-! ## Country list -/

/-- With a non-empty argument a render of `useCountryList` returns the state
(the argument itself on mount), stores nothing and dispatches nothing. -/
theorem useCountryList_nonempty (h : CountryList) (list : JsArray Country)
    (globalCountryList : Option (JsArray Country)) (dispatch : Nat) (hne : list.elems ≠ []) :
    (useCountryList h list globalCountryList dispatch).2 =
      { returned := h.countriesList.getD list, stored := none, dispatched := [] } ∧
    (useCountryList h list globalCountryList dispatch).1.countriesList =
      some (h.countriesList.getD list) := by
  have hlen : list.length ≠ 0 := by
    cases hl : list.elems with
    | nil => exact absurd hl hne
    | cons c rest => simp [JsArray.length, hl]
  simp [useCountryList, hlen]

/-- A render of `useCountryList` that dispatches the fetch or stores the global
list received an empty argument. -/
theorem useCountryList_acts_only_if_empty (h : CountryList) (list : JsArray Country)
    (globalCountryList : Option (JsArray Country)) (dispatch : Nat)
    (hact : (useCountryList h list globalCountryList dispatch).2.dispatched ≠ [] ∨
      (useCountryList h list globalCountryList dispatch).2.stored ≠ none) :
    list.elems = [] := by
  by_contra hne
  have hstep := (useCountryList_nonempty h list globalCountryList dispatch hne).1
  rw [hstep] at hact
  simp at hact

theorem countryListLog_settled (rs : List CountryRender) :
    ∀ (h : CountryList) (first : JsArray Country), h.countriesList = some first →
      (∀ r ∈ rs, ∃ a, r.overrideCountryList = some a ∧ a.elems ≠ []) →
      countryListLog h rs =
        rs.map (fun _ => { returned := first, stored := none, dispatched := [] }) := by
  induction rs with
  | nil => intro h first _ _; rfl
  | cons r rest ih =>
    intro h first hstate hrs
    obtain ⟨a, ha, hne⟩ := hrs r (List.mem_cons_self r rest)
    obtain ⟨hout, hnext⟩ := useCountryList_nonempty h a r.globalCountryList r.dispatch hne
    rw [hstate, Option.getD_some] at hout hnext
    show (useCountryList h (overrideOrEmpty r.overrideCountryList) r.globalCountryList
        r.dispatch).2 ::
      countryListLog (useCountryList h (overrideOrEmpty r.overrideCountryList)
        r.globalCountryList r.dispatch).1 rest = _
    rw [ha]
    show (useCountryList h a r.globalCountryList r.dispatch).2 ::
      countryListLog (useCountryList h a r.globalCountryList r.dispatch).1 rest = _
    rw [hout, ih _ first hnext (fun r' hr' => hrs r' (List.mem_cons_of_mem r hr'))]
    rfl

/-- C12: when every render of the component passes the same non-empty override
list, every render of `useCountryList` returns that list, dispatches no country
fetch and never hands the global list to `setCountriesList`, whatever the
global list holds; and any render that does fetch or copy received an empty
list. -/
theorem useCountryList_override (rs : List CountryRender) (override : List Country)
    (hne : override ≠ [])
    (hrs : ∀ r ∈ rs, ∃ a, r.overrideCountryList = some a ∧ a.elems = override) :
    (∀ out ∈ countryListLog CountryList.mount rs,
      out.returned.elems = override ∧ out.dispatched = [] ∧ out.stored = none) ∧
    (countryListLog CountryList.mount rs).length = rs.length ∧
    (∀ (h : CountryList) (list : JsArray Country) (globalCountryList : Option (JsArray Country))
      (dispatch : Nat),
      ((useCountryList h list globalCountryList dispatch).2.dispatched ≠ [] ∨
        (useCountryList h list globalCountryList dispatch).2.stored ≠ none) →
      list.elems = []) := by
  have hlog : ∀ first rest, rs = first :: rest → ∃ a, a.elems = override ∧
      countryListLog CountryList.mount rs =
        rs.map (fun _ => { returned := a, stored := none, dispatched := [] }) := by
    intro first rest hcons
    subst hcons
    obtain ⟨a, ha, helems⟩ := hrs first (List.mem_cons_self first rest)
    have hane : a.elems ≠ [] := by rw [helems]; exact hne
    obtain ⟨hout, hnext⟩ :=
      useCountryList_nonempty CountryList.mount a first.globalCountryList first.dispatch hane
    refine ⟨a, helems, ?_⟩
    show (useCountryList CountryList.mount (overrideOrEmpty first.overrideCountryList)
        first.globalCountryList first.dispatch).2 ::
      countryListLog (useCountryList CountryList.mount
        (overrideOrEmpty first.overrideCountryList) first.globalCountryList
        first.dispatch).1 rest = _
    rw [ha]
    show (useCountryList CountryList.mount a first.globalCountryList first.dispatch).2 ::
      countryListLog (useCountryList CountryList.mount a first.globalCountryList
        first.dispatch).1 rest = _
    rw [hout, countryListLog_settled rest _ a hnext]
    · rfl
    · intro r hr
      obtain ⟨b, hb, hbe⟩ := hrs r (List.mem_cons_of_mem first hr)
      exact ⟨b, hb, by rw [hbe]; exact hne⟩
  refine ⟨?_, ?_, useCountryList_acts_only_if_empty⟩
  · cases hcase : rs with
    | nil => intro out hout; simp [countryListLog] at hout
    | cons first rest =>
      obtain ⟨a, helems, heq⟩ := hlog first rest hcase
      rw [← hcase, heq]
      intro out hout
      rw [List.mem_map] at hout
      obtain ⟨_, _, rfl⟩ := hout
      exact ⟨helems, rfl, rfl⟩
  · cases hcase : rs with
    | nil => rfl
    | cons first rest =>
      obtain ⟨a, _, heq⟩ := hlog first rest hcase
      rw [← hcase, heq, List.length_map]

/-- Witness for `useCountryList_override`: the override list holding Canada,
rendered on mount with no global list and then with a populated global list. -/
theorem useCountryList_override_witness :
    (countryListLog CountryList.mount
        [ { overrideCountryList := some { ref := 1, elems := [{ code := "CA", name := "Canada" }] },
            globalCountryList := none, dispatch := 0 },
          { overrideCountryList := some { ref := 1, elems := [{ code := "CA", name := "Canada" }] },
            globalCountryList := some { ref := 2, elems := [{ code := "FR", name := "France" }] },
            dispatch := 0 } ]).all
      (fun out => decide (out.returned.elems = [{ code := "CA", name := "Canada" }] ∧
        out.dispatched = [] ∧ out.stored = none)) = true := by
  rw [List.all_eq_true]
  intro out hout
  exact decide_eq_true
    ((useCountryList_override _ [{ code := "CA", name := "Canada" }] (by decide)
      (by decide)).1 out hout)

end CompositeCheckout

namespace EslintrcForPackages

/-- C13: for every directory name `d`, `generateForClient( d )` and
`generateForServer( d )` carry the same `import/no-extraneous-dependencies`
rule, `[ 'error', { packageDir: d } ]`, and the same single override for
`**/test/**/*`, whose rules are `[ 'error', { devDependencies: true,
packageDir: [ d, join( d, '..', '..' ) ] } ]` and `import/no-nodejs-modules`
off; the server configuration has in addition `sourceType` `script` at the top
level, `sourceType` `module` in the override and `import/no-nodejs-modules`
off at the top level, and without these three entries it is the client
configuration. -/
theorem generateForServer_vs_generateForClient (join : String → String → String → String)
    (d : String) :
    ((generateForClient join d).get "rules").bind
        (ConfigValue.get "import/no-extraneous-dependencies")
      = some (.arr [.str "error", .obj [("packageDir", .str d)]]) ∧
    ((generateForServer join d).get "rules").bind
        (ConfigValue.get "import/no-extraneous-dependencies")
      = some (.arr [.str "error", .obj [("packageDir", .str d)]]) ∧
    (generateForClient join d).get "overrides" = some (.arr [
      .obj [
        ("files", .arr [.str "**/test/**/*"]),
        ("rules", .obj [
          ("import/no-extraneous-dependencies",
            .arr [.str "error",
              .obj [("devDependencies", .bool true),
                    ("packageDir", .arr [.str d, .str (join d ".." "..")])]]),
          ("import/no-nodejs-modules", .str "off")])]]) ∧
    ((generateForServer join d).get "overrides").map
        (ConfigValue.mapItems (ConfigValue.without "parserOptions"))
      = (generateForClient join d).get "overrides" ∧
    ((generateForServer join d).get "overrides").map
        (ConfigValue.mapItems (fun o => (o.get "parserOptions").getD (.obj [])))
      = some (.arr [.obj [("sourceType", .str "module")]]) ∧
    (generateForServer join d).get "parserOptions" = some (.obj [("sourceType", .str "script")]) ∧
    ((generateForServer join d).get "rules").bind (ConfigValue.get "import/no-nodejs-modules")
      = some (.str "off") ∧
    (generateForClient join d).get "parserOptions" = none ∧
    ((generateForClient join d).get "rules").bind (ConfigValue.get "import/no-nodejs-modules")
      = none ∧
    generateForClient join d =
      (((generateForServer join d).without "parserOptions").modify "rules"
        (ConfigValue.without "import/no-nodejs-modules")).modify "overrides"
        (ConfigValue.mapItems (ConfigValue.without "parserOptions")) := by
  refine ⟨?_, ?_, ?_, ?_, ?_, ?_, ?_, ?_, ?_, ?_⟩ <;>
    simp [generateForClient, generateForServer, ConfigValue.get, ConfigValue.without,
      ConfigValue.modify, ConfigValue.mapItems, List.lookup, List.filter]

end EslintrcForPackages
